import Mathlib

/-!
Verification of the price-aggregation and voting engine of the
persistenceOne/oracle-feeder repository, as a shallow embedding in Lean 4.

Modelling conventions, used throughout:

* `sdk.Dec` (the cosmos 18-fractional-digit fixed-point decimal) is modelled
  two ways.  Where the fixed-point representation is observable or
  load-bearing — `ComputeVWAP`, whose exactness properties are sensitive to
  rounding, and the `Dec.String` rendering — it is modelled at the mantissa
  level: an integer `m` standing for the decimal `m / 10^18`, with `Mul` and
  `Quo` rounding to 18 fractional digits through `chopPrecisionAndRound`
  (round half to even), as the cosmos implementation does.  In the
  TVWAP/deviation pipeline it is modelled as exact `ℚ`: the divergences
  established there are many orders of magnitude above rounding scale.
* Go maps are modelled as association lists iterated in list order; a Go map
  rebuilt from scratch and then read back is modelled as a function or an
  association list, as convenient.  Accumulating sums over map iteration are
  order-independent in `ℚ`, so the list order is immaterial where it cannot
  be observed.
* `provider.PastUnixTime(d)` (the provider package source is not under src/)
  is `time.Now().Add(-d).Unix()`; the current unix time is passed to each
  function as an explicit parameter `now` (in seconds).
* `float64` vote-period arithmetic (`math.Floor(float64(next)/float64(vp))`)
  is modelled as exact integer floor division `Int.fdiv`; for the block
  heights and vote periods in scope the float computation is exact.
* Channels, websockets, gRPC, logging and telemetry are out of the model;
  external interactions (chain height polls, broadcast attempts, block-header
  events) are passed in as explicit event lists.
-/

abbrev ProviderName := String

/-- A cosmos `sdk.Dec` at the mantissa level: the integer `m` stands for the
decimal `m / 10^18`. -/
abbrev Dec := ℤ

/-- cosmos `precisionReuse` = 10^18. -/
def decPrecision : ℤ := 10 ^ 18

/-- cosmos `fivePrecision` = 5 * 10^17: half of one removed precision unit. -/
def fivePrecision : ℤ := 5 * 10 ^ 17

/-- cosmos `chopPrecisionAndRound` on a non-negative mantissa: remove 18
decimal digits, rounding half to even (banker's rounding). -/
def chopPrecisionAndRoundNonneg (n : ℤ) : ℤ :=
  let quo := n / decPrecision
  let rem := n % decPrecision
  if rem = 0 then quo
  else if rem < fivePrecision then quo
  else if fivePrecision < rem then quo + 1
  else if quo % 2 = 0 then quo else quo + 1

/-- cosmos `chopPrecisionAndRound`: negative mantissas are chopped in
absolute value and re-negated. -/
def chopPrecisionAndRound (n : ℤ) : ℤ :=
  if n < 0 then -chopPrecisionAndRoundNonneg (-n) else chopPrecisionAndRoundNonneg n

/-- cosmos `Dec.Mul`: multiply the mantissas, then chop-and-round. -/
def decMul (a b : Dec) : Dec :=
  chopPrecisionAndRound (a * b)

/-- cosmos `Dec.Quo`: scale the numerator by 10^36, truncated big-integer
division (`big.Int.Quo`), then chop-and-round. -/
def decQuo (a b : Dec) : Dec :=
  chopPrecisionAndRound (Int.tdiv (a * decPrecision * decPrecision) b)

/-- oracle/types: TickerPrice (price, 24h volume), at the `sdk.Dec` mantissa
level. -/
structure TickerPrice where
  price : Dec
  volume : Dec
deriving DecidableEq, Repr

/-- oracle/types: CandlePrice (price, volume, unix timestamp). -/
structure CandlePrice where
  price : ℚ
  volume : ℚ
  timeStamp : ℤ
deriving DecidableEq, Repr

/-- provider.AggregatedProviderPrices: provider -> base -> TickerPrice. -/
abbrev AggregatedProviderPrices := List (ProviderName × List (String × TickerPrice))

/-- provider.AggregatedProviderCandles: provider -> base -> candle list. -/
abbrev AggregatedProviderCandles := List (ProviderName × List (String × List CandlePrice))

/-- util.go: `minimumTimeWeight = sdk.MustNewDecFromStr("0.2000")`. -/
def minimumTimeWeight : ℚ := 2/10

/-- util.go: `minimumCandleVolume = sdk.MustNewDecFromStr("0.0001")`. -/
def minimumCandleVolume : ℚ := 1/10000

/-- util.go: `tvwapCandlePeriod = 5 * time.Minute`, in seconds. -/
def tvwapCandlePeriod : ℤ := 300

/-- All (key, value) entries of a provider-keyed map of maps, in iteration
order: the flattening the `for _, providerPrices := range prices` /
`for base, tp := range providerPrices` double loops perform. -/
def flattenProviders {α : Type} (prices : List (ProviderName × List (String × α))) :
    List (String × α) :=
  prices.flatMap Prod.snd

/-- One term of `weightedPrices[base] = Σ {P * V}` (util.go ComputeVWAP):
`tp.Price.Mul(tp.Volume)`, rounded to 18 fractional digits as `Dec.Mul` is. -/
def vwapWeightedTerm (base : String) (e : String × TickerPrice) : Dec :=
  if e.1 = base then decMul e.2.price e.2.volume else 0

/-- One term of `volumeSum[base] = Σ {V}` (util.go ComputeVWAP); mantissa
addition is exact. -/
def vwapVolumeTerm (base : String) (e : String × TickerPrice) : Dec :=
  if e.1 = base then e.2.volume else 0

/-- util.go ComputeVWAP: the accumulated `weightedPrices[base]`. -/
def weightedPrices (prices : AggregatedProviderPrices) (base : String) : Dec :=
  ((flattenProviders prices).map (vwapWeightedTerm base)).sum

/-- util.go ComputeVWAP: the accumulated `volumeSum[base]`. -/
def volumeSum (prices : AggregatedProviderPrices) (base : String) : Dec :=
  ((flattenProviders prices).map (vwapVolumeTerm base)).sum

/-- Whether `base` is a key of the accumulated maps: some provider reported it. -/
def vwapHasBase (prices : AggregatedProviderPrices) (base : String) : Bool :=
  (flattenProviders prices).any (fun e => e.1 == base)

/-- util.go `vwap` ∘ `ComputeVWAP`: the VWAP map read at `base`.  The Go
`vwap` helper skips a base whose `volumeSum` equals zero, so such a base is
absent from the result; the division is `Dec.Quo`, rounded to 18 fractional
digits. -/
def ComputeVWAP (prices : AggregatedProviderPrices) (base : String) : Option Dec :=
  if vwapHasBase prices base ∧ volumeSum prices base ≠ 0 then
    some (decQuo (weightedPrices prices base) (volumeSum prices base))
  else none

/-- util.go ComputeTVWAP: `sort.SliceStable(cp, ...)` by timestamp ascending. -/
def sortCandles (cp : List CandlePrice) : List CandlePrice :=
  List.insertionSort (fun a b => a.timeStamp ≤ b.timeStamp) cp

/-- `cp[0].TimeStamp` after the ascending sort (the oldest candle). -/
def oldestTimeStamp (cp : List CandlePrice) : ℤ :=
  ((sortCandles cp).headD ⟨0, 0, 0⟩).timeStamp

/-- util.go ComputeTVWAP: `period = sdk.NewDec(now - cp[0].TimeStamp)`. -/
def tvwapPeriod (now : ℤ) (cp : List CandlePrice) : ℚ :=
  ((now - oldestTimeStamp cp : ℤ) : ℚ)

/-- util.go ComputeTVWAP: the window filter `timePeriod < candle.TimeStamp`
with `timePeriod = PastUnixTime(tvwapCandlePeriod) = now - 300`. -/
def inTvwapWindow (now : ℤ) (c : CandlePrice) : Bool :=
  now - tvwapCandlePeriod < c.timeStamp

/-- util.go ComputeTVWAP, loop body: the effective volume of one candle.
The source computes
`volume := candle.Volume.Mul(weightUnit.Mul(period.Sub(timeDiff).Add(minimumTimeWeight)))`,
i.e. `volume * (weightUnit * (period - timeDiff + 0.2))` — note that
`minimumTimeWeight` is added INSIDE the factor multiplied by `weightUnit`,
although the comment right above that line documents
`volume = candle.Volume * (weightUnit * (period - timeDiff) + minimumTimeWeight)`.
A zero volume (exactly zero, not merely below 0.0001) is first replaced by
`minimumCandleVolume`. -/
def candleEffectiveVolume (now : ℤ) (period weightUnit : ℚ) (c : CandlePrice) : ℚ :=
  let timeDiff : ℚ := ((now - c.timeStamp : ℤ) : ℚ)
  let vol := if c.volume = 0 then minimumCandleVolume else c.volume
  vol * (weightUnit * (period - timeDiff + minimumTimeWeight))

/-- util.go ComputeTVWAP: the `volumeSum[base]` contribution of one
(base, candle list) map entry. -/
def baseVolumeSum (now : ℤ) (cp : List CandlePrice) : ℚ :=
  let period := tvwapPeriod now cp
  let weightUnit := (1 - minimumTimeWeight) / period
  ((cp.filter (inTvwapWindow now)).map (candleEffectiveVolume now period weightUnit)).sum

/-- util.go ComputeTVWAP: the `weightedPrices[base]` contribution of one
(base, candle list) map entry: `Σ candle.Price * volume`. -/
def baseWeightedSum (now : ℤ) (cp : List CandlePrice) : ℚ :=
  let period := tvwapPeriod now cp
  let weightUnit := (1 - minimumTimeWeight) / period
  ((cp.filter (inTvwapWindow now)).map
    (fun c => c.price * candleEffectiveVolume now period weightUnit c)).sum

/-- util.go ComputeTVWAP: some non-empty candle list has
`period.Equal(sdk.ZeroDec())`, which aborts the whole computation. -/
def tvwapDivZero (now : ℤ) (prices : AggregatedProviderCandles) : Bool :=
  (flattenProviders prices).any
    (fun e => !e.2.isEmpty && decide (tvwapPeriod now e.2 = 0))

/-- The bases that get entries in the accumulated maps: those with a
non-empty candle list under some provider (empty lists are `continue`d
before the zero entries are installed). -/
def tvwapBases (prices : AggregatedProviderCandles) : List String :=
  (((flattenProviders prices).filter (fun e => !e.2.isEmpty)).map Prod.fst).dedup

/-- The accumulated `volumeSum[base]` over all providers. -/
def tvwapVolumeSum (now : ℤ) (prices : AggregatedProviderCandles) (base : String) : ℚ :=
  (((flattenProviders prices).filter (fun e => e.1 == base && !e.2.isEmpty)).map
    (fun e => baseVolumeSum now e.2)).sum

/-- The accumulated `weightedPrices[base]` over all providers. -/
def tvwapWeightedSum (now : ℤ) (prices : AggregatedProviderCandles) (base : String) : ℚ :=
  (((flattenProviders prices).filter (fun e => e.1 == base && !e.2.isEmpty)).map
    (fun e => baseWeightedSum now e.2)).sum

/-- util.go ComputeTVWAP.  Returns the association list of the resulting map:
one entry per base with a non-empty candle list and non-zero accumulated
volume (the `vwap` helper skips zero-volume bases). -/
def ComputeTVWAP (now : ℤ) (prices : AggregatedProviderCandles) :
    Except String (List (String × ℚ)) :=
  if tvwapDivZero now prices then .error "unable to divide by zero"
  else .ok ((tvwapBases prices).filterMap (fun base =>
    let vs := tvwapVolumeSum now prices base
    if vs = 0 then none
    else some (base, tvwapWeightedSum now prices base / vs)))

/-- Modelled from the spec: the per-candle effective volume as the spec (and
the source's own inline comment) states it,
`v' = max(c.volume, VOLUME_FLOOR) × (weightUnit × (period − (now − c.timestamp)) + MIN_TIME_WEIGHT)`.
Kept separate from `candleEffectiveVolume` (the source's behaviour) so the
two can be compared. -/
def specCandleEffectiveVolume (now : ℤ) (period weightUnit : ℚ) (c : CandlePrice) : ℚ :=
  let timeDiff : ℚ := ((now - c.timeStamp : ℤ) : ℚ)
  max c.volume minimumCandleVolume * (weightUnit * (period - timeDiff) + minimumTimeWeight)

/-- Modelled from the spec: `volumeSum[base]` under the spec's weight formula. -/
def specBaseVolumeSum (now : ℤ) (cp : List CandlePrice) : ℚ :=
  let period := tvwapPeriod now cp
  let weightUnit := (1 - minimumTimeWeight) / period
  ((cp.filter (inTvwapWindow now)).map (specCandleEffectiveVolume now period weightUnit)).sum

/-- Modelled from the spec: `weightedPrices[base]` under the spec's weight formula. -/
def specBaseWeightedSum (now : ℤ) (cp : List CandlePrice) : ℚ :=
  let period := tvwapPeriod now cp
  let weightUnit := (1 - minimumTimeWeight) / period
  ((cp.filter (inTvwapWindow now)).map
    (fun c => c.price * specCandleEffectiveVolume now period weightUnit c)).sum

/-- Modelled from the spec: TVWAP with the spec's per-candle weight formula;
structure otherwise identical to `ComputeTVWAP`. -/
def specComputeTVWAP (now : ℤ) (prices : AggregatedProviderCandles) :
    Except String (List (String × ℚ)) :=
  if tvwapDivZero now prices then .error "unable to divide by zero"
  else .ok ((tvwapBases prices).filterMap (fun base =>
    let vs := (((flattenProviders prices).filter
        (fun e => e.1 == base && !e.2.isEmpty)).map
        (fun e => specBaseVolumeSum now e.2)).sum
    if vs = 0 then none
    else some (base,
      (((flattenProviders prices).filter
        (fun e => e.1 == base && !e.2.isEmpty)).map
        (fun e => specBaseWeightedSum now e.2)).sum / vs)))

/-- cosmos `SmallestDec()` = 10^-18. -/
def smallestDec : ℚ := 1/10^18

/-- cosmos `Dec.ApproxRoot(2)` Newton loop (util.go reaches it through
`variance.ApproxSqrt()`): starting from guess 1 with initial delta 1, while
`|delta| > SmallestDec()` and fewer than 100 iterations have run, set
`delta = (d/guess - guess)/2` and `guess = guess + delta`.  Modelled in exact
rational arithmetic (the source rounds every operation to 18 fractional
digits); the error return of the source only arises from recovered panics and
has no counterpart here. -/
def approxSqrtLoop : ℕ → ℚ → ℚ → ℚ → ℚ
  | 0, _, _, guess => guess
  | fuel + 1, d, delta, guess =>
      if |delta| ≤ smallestDec then guess
      else
        let delta' := (d / guess - guess) / 2
        approxSqrtLoop fuel d delta' (guess + delta')

/-- cosmos `Dec.ApproxSqrt`: shortcuts for 0 and 1, negative inputs handled
as `-sqrt(|d|)`, otherwise the Newton loop with 100 iterations. -/
def ApproxSqrt (d : ℚ) : ℚ :=
  if d = 0 ∨ d = 1 then d
  else if d < 0 then
    -(if -d = 1 then -d else approxSqrtLoop 100 (-d) 1 1)
  else approxSqrtLoop 100 d 1 1

/-- util.go ComputeStandardDeviationsAndMeans: per asset, the prices reported
for it across providers, in iteration order (`priceSlice[asset]`). -/
def pricesOfAsset (prices : List (ProviderName × List (String × ℚ)))
    (asset : String) : List ℚ :=
  ((flattenProviders prices).filter (fun e => e.1 == asset)).map Prod.snd

/-- util.go ComputeStandardDeviationsAndMeans: returns `(stdDevs, means)` as
association lists.  An asset with fewer than 3 prices is skipped (present in
neither map).  The source's `QuoInt64` truncates at 18 fractional digits; the
model divides exactly. -/
def ComputeStandardDeviationsAndMeans
    (prices : List (ProviderName × List (String × ℚ))) :
    List (String × ℚ) × List (String × ℚ) :=
  let assets := ((flattenProviders prices).map Prod.fst).dedup
  let big := assets.filter (fun a => decide (3 ≤ (pricesOfAsset prices a).length))
  (big.map (fun a =>
      let ps := pricesOfAsset prices a
      let mean := ps.sum / (ps.length : ℚ)
      let varianceSum := (ps.map (fun p => (p - mean) * (p - mean))).sum
      (a, ApproxSqrt (varianceSum / (ps.length : ℚ)))),
   big.map (fun a =>
      let ps := pricesOfAsset prices a
      (a, ps.sum / (ps.length : ℚ))))

/-- filter.go: `defaultDeviationThreshold = sdk.MustNewDecFromStr("1.0")`. -/
def defaultDeviationThreshold : ℚ := 1

/-- filter.go `isBetween`: `p.GTE(mean.Sub(margin)) && p.LTE(mean.Add(margin))`. -/
def isBetween (p mean margin : ℚ) : Bool :=
  decide (mean - margin ≤ p) && decide (p ≤ mean + margin)

/-- filter.go filterCandleDeviations, first inner loop: the `candlePrices`
map built for one provider.  The loop body assigns
`candlePrices[providerName] = map[string][]types.CandlePrice{base: cp}`,
OVERWRITING the whole entry on every iteration, so after the loop only the
provider's last-iterated (base, candles) pair remains (and nothing at all
when the provider's map is empty). -/
def candlePricesOf (pc : ProviderName × List (String × List CandlePrice)) :
    AggregatedProviderCandles :=
  match pc.2.getLast? with
  | none => []
  | some e => [(pc.1, [e])]

/-- `candles[providerName][base]` with Go's zero-value reads. -/
def lookupCandles (candles : AggregatedProviderCandles) (pn : ProviderName)
    (base : String) : List CandlePrice :=
  (((candles.lookup pn).getD []).lookup base).getD []

/-- filter.go filterCandleDeviations: computes each provider's single-provider
TVWAP (through `candlePricesOf`, hence only for the last-iterated base),
computes per-base standard deviations and means across providers, and keeps a
provider's candles for a base iff no deviation is available for that base or
the provider's TVWAP for it lies within `threshold × σ` of the mean. -/
def filterCandleDeviations (now : ℤ) (candles : AggregatedProviderCandles)
    (deviationThresholds : List (String × ℚ)) :
    Except String AggregatedProviderCandles := do
  let tvwapsAll ← candles.mapM (fun pc =>
    (ComputeTVWAP now (candlePricesOf pc)).map (fun tv => (pc.1, tv)))
  let tvwaps := tvwapsAll.filter (fun e => !e.2.isEmpty)
  let (deviations, means) := ComputeStandardDeviationsAndMeans tvwaps
  let filtered := tvwaps.map (fun pe =>
    (pe.1, pe.2.filterMap (fun be =>
      let t := (deviationThresholds.lookup be.1).getD defaultDeviationThreshold
      match deviations.lookup be.1 with
      | none => some (be.1, lookupCandles candles pe.1 be.1)
      | some d =>
          if isBetween be.2 ((means.lookup be.1).getD 0) (d * t) then
            some (be.1, lookupCandles candles pe.1 be.1)
          else none)))
  pure (filtered.filter (fun e => !e.2.isEmpty))

/-- oracle.go PreviousPrevote. -/
structure PreviousPrevote where
  exchangeRates : String
  salt : String
  submitBlockHeight : ℤ
deriving DecidableEq, Repr

/-- The vote state the tick loop threads: `o.previousPrevote` and
`o.previousVotePeriod` (a float64 holding `floor(height / votePeriod)`,
`0` when none is recorded; modelled as `ℤ`). -/
structure VoteState where
  previousPrevote : Option PreviousPrevote
  previousVotePeriod : ℤ
deriving DecidableEq, Repr

/-- oracle.go checkVotingPeriod: returns whether the tick proceeds to
broadcast, together with the (possibly reset) vote state. -/
def checkVotingPeriod (s : VoteState)
    (currentVotePeriod oracleVotePeriod indexInVotePeriod : ℤ) :
    Bool × VoteState :=
  if (s.previousVotePeriod ≠ 0 ∧ currentVotePeriod = s.previousVotePeriod) ∨
      oracleVotePeriod - indexInVotePeriod < 2 then
    (false, s)
  else if s.previousVotePeriod ≠ 0 ∧
      currentVotePeriod - s.previousVotePeriod ≠ 1 then
    (false, { previousPrevote := none, previousVotePeriod := 0 })
  else
    (true, s)

/-- What one tick did: which messages it broadcast and the vote state it
leaves behind. -/
structure TickResult where
  broadcastsPrevote : Bool
  broadcastsVote : Bool
  state : VoteState
deriving DecidableEq, Repr

/-- oracle.go executeTick, vote portion (after prices are set): computes
`nextBlockHeight = blockHeight + 1`,
`currentVotePeriod = floor(next / votePeriod)` and
`indexInVotePeriod = next mod votePeriod`, consults `checkVotingPeriod`, and
either does nothing, broadcasts a prevote (recording it together with
`floor(heightAfterPrevote / votePeriod)`, the height re-read after the
broadcast), or broadcasts the reveal vote and clears the state.  Broadcast
transport errors abort the tick without touching the state and are outside
this model. -/
def executeTickVote (s : VoteState)
    (blockHeight oracleVotePeriod heightAfterPrevote : ℤ)
    (salt exchangeRates : String) : TickResult :=
  let nextBlockHeight := blockHeight + 1
  let currentVotePeriod := Int.fdiv nextBlockHeight oracleVotePeriod
  let indexInVotePeriod := Int.emod nextBlockHeight oracleVotePeriod
  match checkVotingPeriod s currentVotePeriod oracleVotePeriod indexInVotePeriod with
  | (false, s1) => ⟨false, false, s1⟩
  | (true, s1) =>
      match s1.previousPrevote with
      | none =>
          ⟨true, false,
            { previousPrevote := some ⟨exchangeRates, salt, heightAfterPrevote⟩,
              previousVotePeriod := Int.fdiv heightAfterPrevote oracleVotePeriod }⟩
      | some _ => ⟨false, true, { previousPrevote := none, previousVotePeriod := 0 }⟩

/-- The 18 fractional digits of `n` (`n < 10^18` intended), most significant
first: the zero-padded fractional part cosmos `Dec.String` renders. -/
def fracDigits (n : ℕ) : List Char :=
  (List.range 18).map (fun i => Char.ofNat (48 + n / 10 ^ (17 - i) % 10))

/-- cosmos `Dec.String` for the decimal with mantissa `m` (value `m / 10^18`):
the integer part, a point, and exactly 18 fractional digits, with a leading
minus sign for negative values. -/
def decString (m : ℤ) : String :=
  let n := m.natAbs
  let s := toString (n / 10 ^ 18) ++ "." ++ String.mk (fracDigits (n % 10 ^ 18))
  if m < 0 then "-" ++ s else s

/-- oracle.go generateExchangeRatesString: one `base:price` entry. -/
def exchangeRateEntry (e : String × ℤ) : String :=
  e.1 ++ ":" ++ decString e.2

/-- oracle.go: `errNoPriceAvailable = errors.New("price is not available")`. -/
def errNoPriceAvailable : String := "price is not available"

/-- oracle.go generateExchangeRatesString: error on an empty prices map,
otherwise the `base:price` entries (prices as mantissas of `sdk.Dec`),
sorted as strings and joined with commas. -/
def generateExchangeRatesString (prices : List (String × ℤ)) : Except String String :=
  if prices.isEmpty then .error errNoPriceAvailable
  else .ok (String.intercalate ","
    (List.insertionSort (· ≤ ·) (prices.map exchangeRateEntry)))

/-- client.go BroadcastTx: the `sdk.TxResponse` fields the loop inspects. -/
structure TxResponse where
  code : ℕ
  txHash : String
  height : ℤ
deriving DecidableEq, Repr

/-- One attempt of the inner `broadcastTx` (tx.go): an error (the source then
has a nil response), or the response of the mined transaction. -/
inductive AttemptResult where
  | failed (err : String)
  | response (r : TxResponse)
deriving DecidableEq, Repr

/-- One iteration's external inputs for the BroadcastTx retry loop: the
`ChainHeight.GetChainHeight()` read (which can itself fail), and — consulted
only when the height advanced below the bound — that iteration's broadcast
attempt. -/
inductive HeightPoll where
  | failed
  | ok (h : ℤ) (attempt : AttemptResult)
deriving DecidableEq, Repr

/-- How the BroadcastTx loop terminated. -/
inductive BroadcastOutcome where
  | success (r : TxResponse)
  | timedOut
  | heightQueryError
  | exhausted
deriving DecidableEq, Repr

/-- client.go BroadcastTx retry loop over the supplied polls: a failed height
query returns its error; an unchanged height sleeps and retries; otherwise
`lastCheckHeight` advances to the read height and the loop times out when it
reaches `maxBlockHeight`; an attempt erroring, or answering with a response
whose code is non-zero, sleeps and retries; a code-0 response succeeds.
`exhausted` stands for the still-running loop once the polls run out. -/
def broadcastTxLoop (lastCheckHeight maxBlockHeight : ℤ) :
    List HeightPoll → BroadcastOutcome
  | [] => .exhausted
  | .failed :: _ => .heightQueryError
  | .ok h att :: rest =>
      if h ≤ lastCheckHeight then broadcastTxLoop lastCheckHeight maxBlockHeight rest
      else if maxBlockHeight ≤ h then .timedOut
      else
        match att with
        | .failed _ => broadcastTxLoop h maxBlockHeight rest
        | .response r =>
            if r.code ≠ 0 then broadcastTxLoop h maxBlockHeight rest
            else .success r

/-- client.go BroadcastTx: `maxBlockHeight = nextBlockHeight + timeoutHeight`,
`lastCheckHeight = nextBlockHeight - 1`, then the retry loop. -/
def BroadcastTx (nextBlockHeight timeoutHeight : ℤ) (polls : List HeightPoll) :
    BroadcastOutcome :=
  broadcastTxLoop (nextBlockHeight - 1) (nextBlockHeight + timeoutHeight) polls

/-- config.go: `DenomUSD = "USD"`. -/
def DenomUSD : String := "USD"

/-- config.go CurrencyPair (base, quote, providers). -/
structure ConfigCurrencyPair where
  base : String
  quote : String
  providers : List String
deriving DecidableEq, Repr

/-- Modelled from the spec: the provider package's `Name` constants referenced
by config.go and oracle.go (the provider package source is not under src/).
Only their distinctness matters to the claims, not the exact strings. -/
def providerKraken : String := "kraken"

def providerBinance : String := "binance"

def providerBinanceUS : String := "binanceus"

def providerOsmosis : String := "osmosis"

def providerCrypto : String := "crypto"

def providerCoinbase : String := "coinbase"

def providerHuobi : String := "huobi"

def providerMock : String := "mock"

/-- config.go SupportedProviders: the lookup table of all provider names the
configuration accepts. -/
def SupportedProviders : List String :=
  [providerKraken, providerBinance, providerBinanceUS, providerOsmosis,
   providerCrypto, providerCoinbase, providerHuobi, providerMock]

/-- config.go SupportedQuotes: only USD. -/
def SupportedQuotes : List String := [DenomUSD]

/-- `strings.ToUpper` restricted to ASCII (all configured symbols are ASCII). -/
def asciiToUpper (s : String) : String :=
  String.mk (s.data.map Char.toUpper)

/-- config.go ParseConfig, first loop over `cfg.CurrencyPairs`: collects the
non-USD quotes into `coinQuotes` (a set, modelled as a duplicate-free list in
insertion order), then rejects the pair if its upper-cased quote is not a
supported quote, then rejects the first unsupported provider.  Note the
collection happens BEFORE the supported-quote check, in the same iteration,
so any pair that populates `coinQuotes` also immediately fails the
supported-quote check.  (The `pairProviderMap` the source also builds is
never read afterwards and is omitted.) -/
def validatePairs : List ConfigCurrencyPair → List String → Except String (List String)
  | [], coinQuotes => .ok coinQuotes
  | cp :: rest, coinQuotes =>
      let coinQuotes' :=
        if asciiToUpper cp.quote = DenomUSD then coinQuotes
        else if cp.quote ∈ coinQuotes then coinQuotes
        else coinQuotes ++ [cp.quote]
      if asciiToUpper cp.quote ∉ SupportedQuotes then
        .error ("unsupported quote: " ++ cp.quote)
      else
        match cp.providers.find? (fun p => !SupportedProviders.contains p) with
        | some p => .error ("unsupported provider: " ++ p)
        | none => validatePairs rest coinQuotes'

/-- Whether some configured pair is `(q, USD)` — the conversion-rate feed the
second ParseConfig loop looks for. -/
def quoteHasUSDFeed (pairs : List ConfigCurrencyPair) (q : String) : Bool :=
  pairs.any (fun p => p.base == q && p.quote == DenomUSD)

/-- config.go ParseConfig, second loop (`for quote := range coinQuotes`): the
inner indexed loop breaks on the first `(quote, USD)` pair and errors once the
last index is reached without one; for a non-empty pair list that is: error
iff no `(quote, USD)` pair exists.  (With an empty pair list the inner loop
body never runs, and `coinQuotes` is empty anyway.) -/
def checkCoinQuotes (pairs : List ConfigCurrencyPair) :
    List String → Except String Unit
  | [] => .ok ()
  | q :: rest =>
      if pairs.isEmpty then checkCoinQuotes pairs rest
      else if quoteHasUSDFeed pairs q then checkCoinQuotes pairs rest
      else .error "all non-usd quotes require a conversion rate feed"

/-- config.go ParseConfig, the currency-pair validation stage: the first loop
over the pairs followed by the conversion-feed check over the collected
non-USD quotes.  (File reading, defaulting, deviation-threshold bounds and
struct validation surround this stage in the source and are out of scope
here.) -/
def parseConfigPairs (pairs : List ConfigCurrencyPair) : Except String Unit := do
  let coinQuotes ← validatePairs pairs []
  checkCoinQuotes pairs coinQuotes

/-- The adapters oracle.go NewProvider can construct. -/
inductive ProviderAdapter where
  | binance (us : Bool)
  | kraken
  | osmosis
deriving DecidableEq, Repr

/-- oracle.go NewProvider: the provider constructor switch.  Binance,
BinanceUS, Kraken and Osmosis get adapters; every other name — including the
remaining members of `SupportedProviders` — falls through to
`provider %s not found`.  (The per-adapter constructor arguments and their
network failures are outside the model.) -/
def NewProvider (providerName : String) : Except String ProviderAdapter :=
  if providerName = providerBinance then .ok (.binance false)
  else if providerName = providerBinanceUS then .ok (.binance true)
  else if providerName = providerKraken then .ok .kraken
  else if providerName = providerOsmosis then .ok .osmosis
  else .error ("provider " ++ providerName ++ " not found")

/-- chain_height.go: `errParseEventDataNewBlockHeader`. -/
def errParseEventDataNewBlockHeader : String :=
  "error parsing EventDataNewBlockHeader"

/-- chain_height.go ChainHeight: the cached height and last error. -/
structure ChainHeightState where
  lastChainHeight : ℤ
  errGetChainHeight : Option String
deriving DecidableEq, Repr

/-- chain_height.go updateChainHeight: stores the given height and error. -/
def updateChainHeight (ch : ChainHeightState) (blockHeight : ℤ)
    (err : Option String) : ChainHeightState :=
  { lastChainHeight := blockHeight, errGetChainHeight := err }

/-- One delivery of the new-block-header subscription: a well-formed header
event, or data that fails the `EventDataNewBlockHeader` type assertion. -/
inductive HeaderEvent where
  | newBlockHeader (height : ℤ)
  | malformed
deriving DecidableEq, Repr

/-- chain_height.go subscribe, loop body: a malformed event stores the
PREVIOUS cached height together with the parse error; a well-formed header
stores its height with no error. -/
def handleHeaderEvent (ch : ChainHeightState) : HeaderEvent → ChainHeightState
  | .malformed =>
      updateChainHeight ch ch.lastChainHeight (some errParseEventDataNewBlockHeader)
  | .newBlockHeader h => updateChainHeight ch h none

/-- The subscription loop over a finite event sequence. -/
def runHeaderEvents (ch : ChainHeightState) (events : List HeaderEvent) :
    ChainHeightState :=
  events.foldl handleHeaderEvent ch

/-- chain_height.go GetChainHeight: the cached height and error, together. -/
def GetChainHeight (ch : ChainHeightState) : ℤ × Option String :=
  (ch.lastChainHeight, ch.errGetChainHeight)

/-- Claim C1: evaluation of `ComputeTVWAP` on two candles of one provider
(now=1000, base ATOM, candles (price 10, volume 1, ts 900) and (price 20,
volume 1, ts 1000), both inside the 300 s window, so period = 100 and
weightUnit = (1-0.2)/100).  The source weighs them with
`volume * (weightUnit * (period - timeDiff + 0.2))`, giving TVWAP 5015/251
(≈ 19.98), while the claimed formula
`max(volume, 0.0001) * (weightUnit * (period - timeDiff) + 0.2)` — which is
also the formula of the source's own inline comment — gives 55/3 (≈ 18.33). -/
theorem computeTVWAP_weight_formula_bug :
    ComputeTVWAP 1000 [("binance", [("ATOM", [⟨10, 1, 900⟩, ⟨20, 1, 1000⟩])])] =
      .ok [("ATOM", 5015/251)] ∧
    specComputeTVWAP 1000 [("binance", [("ATOM", [⟨10, 1, 900⟩, ⟨20, 1, 1000⟩])])] =
      .ok [("ATOM", 55/3)] ∧
    (5015/251 : ℚ) ≠ 55/3 := by
  refine ⟨by with_unfolding_all rfl, by with_unfolding_all rfl, by norm_num⟩

/-- Claim C2: evaluation of `filterCandleDeviations` on one provider with TWO
bases, each with one in-window candle.  With a single provider no standard
deviation is available, so the claim says both bases' candles are retained;
the source retains only the provider's last-iterated base (`BBB`), because the
`candlePrices` map entry is overwritten on every iteration of the inner loop,
and drops `AAA` entirely. -/
theorem filterCandleDeviations_last_base_only :
    filterCandleDeviations 1000
        [("binance", [("AAA", [⟨10, 1, 950⟩]), ("BBB", [⟨20, 2, 960⟩])])] [] =
      .ok [("binance", [("BBB", [⟨20, 2, 960⟩])])] := by
  with_unfolding_all rfl

/-- Claim C3 (counterexample): a prevote recorded during vote period 0 (e.g.
submitted at height 3 with votePeriod 10) leaves `previousVotePeriod = 0`,
the sentinel for "none".  On the next tick at H=4 (`next = 5`,
`current = 0 = previousVotePeriod`, index 5) the claim says the tick
broadcasts nothing and leaves the state unchanged; the source instead
proceeds and broadcasts the reveal vote, clearing the state. -/
theorem executeTick_skip_cex :
    executeTickVote ⟨some ⟨"r", "s", 3⟩, 0⟩ 4 10 0 "" "" =
      ⟨false, true, ⟨none, 0⟩⟩ ∧
    Int.fdiv (4 + 1) 10 = (0 : ℤ) := by
  exact ⟨rfl, rfl⟩

/-- Claim C3 (amended): if a prevote is outstanding with a NONZERO recorded
previous vote period equal to the current vote period, or
`votePeriod - index < 2`, the tick broadcasts neither a prevote nor a vote
and leaves the vote state unchanged. -/
theorem executeTick_skip (s : VoteState) (blockHeight oracleVotePeriod h2 : ℤ)
    (salt er : String)
    (h : (s.previousPrevote ≠ none ∧ s.previousVotePeriod ≠ 0 ∧
            Int.fdiv (blockHeight + 1) oracleVotePeriod = s.previousVotePeriod) ∨
         oracleVotePeriod - Int.emod (blockHeight + 1) oracleVotePeriod < 2) :
    executeTickVote s blockHeight oracleVotePeriod h2 salt er =
      ⟨false, false, s⟩ := by
  have hc : checkVotingPeriod s (Int.fdiv (blockHeight + 1) oracleVotePeriod)
      oracleVotePeriod (Int.emod (blockHeight + 1) oracleVotePeriod) = (false, s) := by
    unfold checkVotingPeriod
    rcases h with ⟨_, hnz, heq⟩ | hlt
    · rw [if_pos (Or.inl ⟨hnz, heq⟩)]
    · rw [if_pos (Or.inr hlt)]
  simp only [executeTickVote, hc]

/-- Claim C3 (witness): votePeriod 10, H = 18, so next = 19, index = 9 and
votePeriod − index = 1 < 2: the tick broadcasts nothing. -/
theorem executeTick_skip_witness :
    executeTickVote ⟨none, 0⟩ 18 10 19 "s" "r" = ⟨false, false, ⟨none, 0⟩⟩ :=
  executeTick_skip ⟨none, 0⟩ 18 10 19 "s" "r" (Or.inr (by decide))

/-- Claim C4 (counterexample): with a prevote outstanding,
`previousVotePeriod = 5` and the current vote period also 5 (H = 54,
votePeriod 10, next = 55), `current − previous = 0 ≠ 1`, so the claim says
the engine clears the state; the source's skip condition fires first and the
state is left UNCHANGED (the prevote is still outstanding). -/
theorem executeTick_periodMiss_cex :
    executeTickVote ⟨some ⟨"r", "s", 50⟩, 5⟩ 54 10 0 "" "" =
      ⟨false, false, ⟨some ⟨"r", "s", 50⟩, 5⟩⟩ := by
  exact rfl

/-- Claim C4 (amended): if a prevote is outstanding, the recorded previous
vote period is nonzero, the current vote period differs from it by something
other than 0 or 1, and the tick is not within 2 of the period boundary, then
the engine clears `previousPrevote` and `previousVotePeriod` and broadcasts
neither a prevote nor a vote. -/
theorem executeTick_periodMiss (s : VoteState)
    (blockHeight oracleVotePeriod h2 : ℤ) (salt er : String)
    (hpv : s.previousPrevote ≠ none)
    (hnz : s.previousVotePeriod ≠ 0)
    (hne : Int.fdiv (blockHeight + 1) oracleVotePeriod ≠ s.previousVotePeriod)
    (hmiss : Int.fdiv (blockHeight + 1) oracleVotePeriod - s.previousVotePeriod ≠ 1)
    (hidx : 2 ≤ oracleVotePeriod - Int.emod (blockHeight + 1) oracleVotePeriod) :
    executeTickVote s blockHeight oracleVotePeriod h2 salt er =
      ⟨false, false, ⟨none, 0⟩⟩ := by
  have hc : checkVotingPeriod s (Int.fdiv (blockHeight + 1) oracleVotePeriod)
      oracleVotePeriod (Int.emod (blockHeight + 1) oracleVotePeriod) =
      (false, ⟨none, 0⟩) := by
    unfold checkVotingPeriod
    rw [if_neg, if_pos ⟨hnz, hmiss⟩]
    rintro (⟨_, heq⟩ | hlt)
    · exact hne heq
    · omega
  simp only [executeTickVote, hc]

/-- Claim C4 (witness): previousVotePeriod = 5, H = 79 and votePeriod = 10
give current = 8; the engine clears the state and broadcasts nothing. -/
theorem executeTick_periodMiss_witness :
    executeTickVote ⟨some ⟨"x", "y", 50⟩, 5⟩ 79 10 0 "" "" =
      ⟨false, false, ⟨none, 0⟩⟩ :=
  executeTick_periodMiss ⟨some ⟨"x", "y", 50⟩, 5⟩ 79 10 0 "" ""
    (by decide) (by decide) (by decide) (by decide) (by decide)

/-- Claim C5: on the empty prices map, `generateExchangeRatesString` signals
the no-price-available error.  On a non-empty prices map it returns the
comma-join of a lexicographically sorted permutation of the `BASE:price`
entries; each entry for a non-negative price renders the price as the integer
part, a point, and exactly 18 fractional digits (trailing zeros preserved). -/
theorem generateExchangeRatesString_spec (prices : List (String × ℤ)) :
    (prices = [] →
      generateExchangeRatesString prices = .error errNoPriceAvailable) ∧
    (prices ≠ [] → ∃ l : List String,
      generateExchangeRatesString prices = .ok (String.intercalate "," l) ∧
      l.Sorted (· ≤ ·) ∧ l.Perm (prices.map exchangeRateEntry)) ∧
    (∀ b : String, ∀ m : ℤ, 0 ≤ m →
      exchangeRateEntry (b, m) =
        b ++ ":" ++ (toString (m.natAbs / 10 ^ 18) ++ "." ++
          String.mk (fracDigits (m.natAbs % 10 ^ 18))) ∧
      (fracDigits (m.natAbs % 10 ^ 18)).length = 18) := by
  refine ⟨?_, ?_, ?_⟩
  · intro h
    subst h
    rfl
  · intro h
    have he : prices.isEmpty = false := by
      simpa [List.isEmpty_iff] using h
    refine ⟨List.insertionSort (· ≤ ·) (prices.map exchangeRateEntry), ?_, ?_, ?_⟩
    · simp [generateExchangeRatesString, he]
    · exact List.sorted_insertionSort _ _
    · exact List.perm_insertionSort _ _
  · intro b m hm
    constructor
    · simp only [exchangeRateEntry, decString, if_neg (Int.not_lt.mpr hm)]
    · simp [fracDigits]

/-- Claim C10: processing a malformed block-header event stores the
previously cached height together with the parse error, so a subsequent
`GetChainHeight` returns that stale height alongside the error — the cached
height is never zeroed by an error, whatever happened before. -/
theorem chainHeight_survives_malformed (ch : ChainHeightState)
    (events : List HeaderEvent) :
    GetChainHeight (runHeaderEvents ch (events ++ [HeaderEvent.malformed])) =
      ((runHeaderEvents ch events).lastChainHeight,
        some errParseEventDataNewBlockHeader) ∧
    (handleHeaderEvent ch HeaderEvent.malformed).lastChainHeight =
      ch.lastChainHeight := by
  constructor
  · simp [runHeaderEvents, GetChainHeight, handleHeaderEvent, updateChainHeight]
  · rfl

/-- Helper: any success of the retry loop carries response code 0. -/
theorem broadcastTxLoop_success_code (polls : List HeightPoll) :
    ∀ (lastCheck maxH : ℤ) (r : TxResponse),
      broadcastTxLoop lastCheck maxH polls = .success r → r.code = 0 := by
  induction polls with
  | nil =>
      intro lastCheck maxH r h
      simp [broadcastTxLoop] at h
  | cons p rest ih =>
      intro lastCheck maxH r h
      cases p with
      | failed => simp [broadcastTxLoop] at h
      | ok hh att =>
          simp only [broadcastTxLoop] at h
          split at h
          · exact ih _ _ _ h
          · split at h
            · cases h
            · cases att with
              | failed e => exact ih _ _ _ h
              | response r2 =>
                  dsimp only at h
                  by_cases hc : r2.code ≠ 0
                  · rw [if_pos hc] at h
                    exact ih _ _ _ h
                  · rw [if_neg hc] at h
                    cases h
                    omega

/-- Helper: the loop cannot time out unless some polled height reaches the
bound. -/
theorem broadcastTxLoop_no_timeout (polls : List HeightPoll) :
    ∀ (lastCheck maxH : ℤ),
      (∀ (h : ℤ) (att : AttemptResult), HeightPoll.ok h att ∈ polls → h < maxH) →
      broadcastTxLoop lastCheck maxH polls ≠ .timedOut := by
  induction polls with
  | nil =>
      intro lastCheck maxH _
      simp [broadcastTxLoop]
  | cons p rest ih =>
      intro lastCheck maxH hb
      have hrest : ∀ (h : ℤ) (att : AttemptResult),
          HeightPoll.ok h att ∈ rest → h < maxH :=
        fun h att hm => hb h att (List.mem_cons_of_mem _ hm)
      cases p with
      | failed => simp [broadcastTxLoop]
      | ok hh att =>
          have hlt : hh < maxH := hb hh att (by simp)
          simp only [broadcastTxLoop]
          split
          · exact ih _ _ hrest
          · rw [if_neg (not_le.mpr hlt)]
            cases att with
            | failed e => exact ih _ _ hrest
            | response r =>
                dsimp only
                by_cases hc : r.code ≠ 0
                · rw [if_pos hc]
                  exact ih _ _ hrest
                · rw [if_neg hc]
                  simp

/-- Claim C6 (amended): BroadcastTx succeeds only with a mined response of
code 0; it cannot time out unless a polled height reaches
`nextBlockHeight + timeoutHeight` (the advanced `lastCheckHeight` minus the
start height reaching `timeoutHeight`), and a step where the height advances
to the bound times out; every attempt that errors, and every response with a
non-zero code — recoverable or not — is retried, and an in-bounds code-0
response terminates the loop successfully. -/
theorem broadcastTx_retry_semantics :
    (∀ (nextBlockHeight timeoutHeight : ℤ) (polls : List HeightPoll)
        (r : TxResponse),
        BroadcastTx nextBlockHeight timeoutHeight polls = .success r →
        r.code = 0) ∧
    (∀ (nextBlockHeight timeoutHeight : ℤ) (polls : List HeightPoll),
        (∀ (h : ℤ) (att : AttemptResult), HeightPoll.ok h att ∈ polls →
          h - nextBlockHeight < timeoutHeight) →
        BroadcastTx nextBlockHeight timeoutHeight polls ≠ .timedOut) ∧
    (∀ (lastCheck maxH h : ℤ) (att : AttemptResult) (rest : List HeightPoll),
        lastCheck < h → maxH ≤ h →
        broadcastTxLoop lastCheck maxH (.ok h att :: rest) = .timedOut) ∧
    (∀ (lastCheck maxH h : ℤ) (r : TxResponse) (rest : List HeightPoll),
        lastCheck < h → h < maxH → r.code ≠ 0 →
        broadcastTxLoop lastCheck maxH (.ok h (.response r) :: rest) =
          broadcastTxLoop h maxH rest) ∧
    (∀ (lastCheck maxH h : ℤ) (e : String) (rest : List HeightPoll),
        lastCheck < h → h < maxH →
        broadcastTxLoop lastCheck maxH (.ok h (.failed e) :: rest) =
          broadcastTxLoop h maxH rest) ∧
    (∀ (lastCheck maxH h : ℤ) (r : TxResponse) (rest : List HeightPoll),
        lastCheck < h → h < maxH → r.code = 0 →
        broadcastTxLoop lastCheck maxH (.ok h (.response r) :: rest) =
          .success r) := by
  refine ⟨?_, ?_, ?_, ?_, ?_, ?_⟩
  · intro nextBlockHeight timeoutHeight polls r h
    exact broadcastTxLoop_success_code polls _ _ r h
  · intro nextBlockHeight timeoutHeight polls hb
    exact broadcastTxLoop_no_timeout polls _ _
      (fun h att hm => by have := hb h att hm; omega)
  · intro lastCheck maxH h att rest h1 h2
    simp only [broadcastTxLoop]
    rw [if_neg (not_le.mpr h1), if_pos h2]
  · intro lastCheck maxH h r rest h1 h2 h3
    simp only [broadcastTxLoop]
    rw [if_neg (not_le.mpr h1), if_neg (not_le.mpr h2), if_pos h3]
  · intro lastCheck maxH h e rest h1 h2
    simp only [broadcastTxLoop]
    rw [if_neg (not_le.mpr h1), if_neg (not_le.mpr h2)]
  · intro lastCheck maxH h r rest h1 h2 h3
    simp only [broadcastTxLoop]
    rw [if_neg (not_le.mpr h1), if_neg (not_le.mpr h2), if_neg (by simp [h3])]

/-- Claim C6 (counterexample): an attempt answered with code 5 — an
unrecoverable cosmos error code (insufficient funds) — is retried rather than
terminating with a permanent error: the next attempt's code-0 response makes
the whole call succeed. -/
theorem broadcastTx_no_permanent_error_cex :
    BroadcastTx 10 5
        [.ok 10 (.response ⟨5, "AA", 10⟩), .ok 11 (.response ⟨0, "BB", 11⟩)] =
      .success ⟨0, "BB", 11⟩ := by
  with_unfolding_all rfl

/-- Helper: when every pair has a USD quote and supported providers, the
first ParseConfig loop succeeds and collects no coin quotes beyond the
accumulator. -/
theorem validatePairs_ok_of (pairs : List ConfigCurrencyPair) :
    ∀ acc : List String,
      (∀ cp ∈ pairs, asciiToUpper cp.quote = DenomUSD ∧
        ∀ p ∈ cp.providers, p ∈ SupportedProviders) →
      validatePairs pairs acc = .ok acc := by
  induction pairs with
  | nil => intro acc _; rfl
  | cons cp rest ih =>
      intro acc hall
      obtain ⟨hq, hp⟩ := hall cp (by simp)
      have hrest := fun c hc => hall c (List.mem_cons_of_mem _ hc)
      have hfind : cp.providers.find? (fun p => !decide (p ∈ SupportedProviders)) =
          none := by
        rw [List.find?_eq_none]
        intro x hx
        simpa using hp x hx
      have hrec := ih acc hrest
      simp [validatePairs, hq, hfind, SupportedQuotes, DenomUSD, hrec]

/-- Helper: if the first ParseConfig loop succeeds, every pair's quote
uppercases to USD and every provider is supported. -/
theorem validatePairs_conditions (pairs : List ConfigCurrencyPair) :
    ∀ (acc q : List String), validatePairs pairs acc = .ok q →
      ∀ cp ∈ pairs, asciiToUpper cp.quote = DenomUSD ∧
        ∀ p ∈ cp.providers, p ∈ SupportedProviders := by
  induction pairs with
  | nil =>
      intro acc q _ cp hc
      cases hc
  | cons c rest ih =>
      intro acc q h cp hc
      simp only [validatePairs] at h
      by_cases hq : asciiToUpper c.quote ∉ SupportedQuotes
      · rw [if_pos hq] at h
        cases h
      · rw [if_neg hq] at h
        have hq' : asciiToUpper c.quote = DenomUSD := by
          have hm := not_not.mp hq
          simpa [SupportedQuotes] using hm
        cases hfind : c.providers.find? (fun p => !SupportedProviders.contains p) with
        | some p =>
            rw [hfind] at h
            cases h
        | none =>
            rw [hfind] at h
            rcases List.mem_cons.mp hc with rfl | hc2
            · refine ⟨hq', fun p hp => ?_⟩
              have := List.find?_eq_none.mp hfind p hp
              simpa using this
            · exact ih _ _ h cp hc2

/-- Claim C7 (amended): the currency-pair validation stage of ParseConfig
accepts exactly the configurations in which every pair's quote uppercases to
USD and every listed provider is supported; in particular every configuration
containing a currency pair whose quote is not USD is rejected at parse time
(with the unsupported-quote error), whether or not that quote appears as a
base paired against USD — the conversion-rate-feed check is unreachable. -/
theorem parseConfigPairs_iff (pairs : List ConfigCurrencyPair) :
    parseConfigPairs pairs = .ok () ↔
      ∀ cp ∈ pairs, asciiToUpper cp.quote = DenomUSD ∧
        ∀ p ∈ cp.providers, p ∈ SupportedProviders := by
  constructor
  · intro h
    unfold parseConfigPairs at h
    cases hv : validatePairs pairs [] with
    | error e =>
        rw [hv] at h
        cases h
    | ok q => exact validatePairs_conditions pairs [] q hv
  · intro hall
    unfold parseConfigPairs
    rw [validatePairs_ok_of pairs [] hall]
    rfl

/-- Claim C7 (counterexample): a configuration whose pair (OSMO, ATOM) has
its quote ATOM itself configured as a base against USD — which the claim says
is accepted — is rejected by ParseConfig with the unsupported-quote error. -/
theorem parseConfigPairs_rejects_bridged_quote :
    parseConfigPairs
        [⟨"OSMO", "ATOM", [providerBinance]⟩,
         ⟨"ATOM", "USD", [providerBinance]⟩] =
      .error ("unsupported quote: " ++ "ATOM") ∧
    quoteHasUSDFeed
        [⟨"OSMO", "ATOM", [providerBinance]⟩,
         ⟨"ATOM", "USD", [providerBinance]⟩] "ATOM" = true := by
  exact ⟨rfl, rfl⟩

/-- Claim C8 (amended): NewProvider returns an adapter exactly for the names
Binance, BinanceUS, Kraken and Osmosis; every other name — in particular the
remaining four members of the configuration's supported set — gets an error. -/
theorem newProvider_dispatch (providerName : String) :
    (∃ a, NewProvider providerName = .ok a) ↔
      providerName ∈
        [providerBinance, providerBinanceUS, providerKraken, providerOsmosis] := by
  unfold NewProvider
  split_ifs with h1 h2 h3 h4 <;>
    simp_all [providerBinance, providerBinanceUS, providerKraken, providerOsmosis]

/-- Claim C8 (counterexample): Mock, Crypto, Coinbase and Huobi are members
of the configuration's SupportedProviders set, yet NewProvider returns the
provider-not-found error for each of them instead of a working adapter. -/
theorem newProvider_supported_but_unconstructible :
    providerMock ∈ SupportedProviders ∧
    NewProvider providerMock =
      .error ("provider " ++ providerMock ++ " not found") ∧
    providerCrypto ∈ SupportedProviders ∧
    NewProvider providerCrypto =
      .error ("provider " ++ providerCrypto ++ " not found") ∧
    providerCoinbase ∈ SupportedProviders ∧
    NewProvider providerCoinbase =
      .error ("provider " ++ providerCoinbase ++ " not found") ∧
    providerHuobi ∈ SupportedProviders ∧
    NewProvider providerHuobi =
      .error ("provider " ++ providerHuobi ++ " not found") := by
  refine ⟨by simp [SupportedProviders], rfl, by simp [SupportedProviders], rfl,
    by simp [SupportedProviders], rfl, by simp [SupportedProviders], rfl⟩

/-- Chopping an exact multiple of 10^18 (non-negative case): the remainder
is zero, so the result is the exact quotient. -/
theorem chopPrecisionAndRoundNonneg_mul (k : ℤ) :
    chopPrecisionAndRoundNonneg (decPrecision * k) = k := by
  have hp : (decPrecision : ℤ) ≠ 0 := by norm_num [decPrecision]
  simp [chopPrecisionAndRoundNonneg, Int.mul_ediv_cancel_left _ hp,
    Int.mul_emod_right]

/-- Chopping an exact multiple of 10^18 is exact division, for either sign. -/
theorem chopPrecisionAndRound_mul (k : ℤ) :
    chopPrecisionAndRound (decPrecision * k) = k := by
  unfold chopPrecisionAndRound
  by_cases hn : decPrecision * k < 0
  · rw [if_pos hn, show -(decPrecision * k) = decPrecision * -k by ring,
      chopPrecisionAndRoundNonneg_mul, neg_neg]
  · rw [if_neg hn, chopPrecisionAndRoundNonneg_mul]

/-- Helper: `Dec.Quo` of exactly representable data: when `p*v` is an exact
multiple of 10^18 (`p*v = 10^18 * k`), the quotient of `N*k` by `N*v` is
exactly `p` — both rounding steps are exact here. -/
theorem decQuo_identity (N k p v : ℤ) (hN : 0 < N) (hv : 0 < v)
    (hk : p * v = decPrecision * k) :
    decQuo (N * k) (N * v) = p := by
  have hnv : N * v ≠ 0 := ne_of_gt (mul_pos hN hv)
  have hnum : N * k * decPrecision * decPrecision =
      (N * v) * (p * decPrecision) := by
    linear_combination (-(N * decPrecision)) * hk
  rw [decQuo, hnum, Int.mul_tdiv_cancel_left _ hnv,
    show p * decPrecision = decPrecision * p by ring, chopPrecisionAndRound_mul]

/-- Helper: over a flattened entry list whose every entry keyed by `base`
carries the identical ticker `(p, v)`, the accumulated sums are the number of
such entries times the rounded product `decMul p v` and times `v`
respectively. -/
theorem vwap_sums_const (base : String) (p v : Dec) :
    ∀ L : List (String × TickerPrice),
      (∀ e ∈ L, e.1 = base → e.2 = ⟨p, v⟩) →
      (L.map (vwapWeightedTerm base)).sum =
          (L.countP (fun e => e.1 == base) : ℤ) * decMul p v ∧
        (L.map (vwapVolumeTerm base)).sum =
          (L.countP (fun e => e.1 == base) : ℤ) * v := by
  intro L
  induction L with
  | nil => intro _; simp
  | cons e rest ih =>
      intro h
      obtain ⟨ih1, ih2⟩ := ih (fun x hx => h x (List.mem_cons_of_mem _ hx))
      by_cases he : e.1 = base
      · have he2 : e.2 = ⟨p, v⟩ := h e (by simp) he
        simp only [List.map_cons, List.sum_cons, List.countP_cons, ih1, ih2,
          vwapWeightedTerm, vwapVolumeTerm, if_pos he, he2, he]
        constructor <;> · push_cast [he] ; ring_nf ; simp [he] ; ring
      · simp only [List.map_cons, List.sum_cons, List.countP_cons, ih1, ih2,
          vwapWeightedTerm, vwapVolumeTerm, if_neg he]
        have : (e.1 == base) = false := by simpa using he
        simp [this]

/-- Claim C9 (counterexample): one provider reporting price 1.5×10⁻¹⁷
(mantissa 15) with volume 0.1 (mantissa 10¹⁷): `Price.Mul(Volume)` rounds the
exact product 1.5×10⁻¹⁸ up to 2×10⁻¹⁸ (round half to even on an odd
quotient), and the final `Quo` then returns 2×10⁻¹⁷ (mantissa 20), not the
reported price — the claimed exact identity fails in the program's
fixed-point arithmetic. -/
theorem computeVWAP_rounding_cex :
    ComputeVWAP [("binance", [("ATOM", ⟨15, 100000000000000000⟩)])] "ATOM" =
      some 20 ∧ (20 : ℤ) ≠ 15 := by
  exact ⟨by decide, by decide⟩

/-- Claim C9 (amended): when every provider that reports `base` reports the
identical `(p, v)` ticker with positive volume AND the product `p*v` is
exactly representable at 18 fractional digits (10¹⁸ divides the mantissa
product), ComputeVWAP returns exactly `p` for `base`; without that exactness
the `Mul`/`Quo` rounding is observable (see the counterexample).  With
`v = 0` the base's total volume is zero and the base is omitted, and in
general any base whose accumulated volume is zero is omitted from the VWAP
result. -/
theorem computeVWAP_identity (prices : AggregatedProviderPrices) (base : String)
    (p v : Dec)
    (hall : ∀ pr ∈ prices, ∀ e ∈ pr.2, e.1 = base → e.2 = ⟨p, v⟩)
    (hex : ∃ pr ∈ prices, ∃ e ∈ pr.2, e.1 = base) :
    (0 < v → decPrecision ∣ p * v → ComputeVWAP prices base = some p) ∧
    (v = 0 → ComputeVWAP prices base = none) ∧
    (∀ (prices2 : AggregatedProviderPrices) (base2 : String),
      volumeSum prices2 base2 = 0 → ComputeVWAP prices2 base2 = none) := by
  have hflat : ∀ e ∈ flattenProviders prices, e.1 = base → e.2 = ⟨p, v⟩ := by
    intro e he
    rw [flattenProviders, List.mem_flatMap] at he
    obtain ⟨pr, hpr, hepr⟩ := he
    exact hall pr hpr e hepr
  obtain ⟨hw, hv⟩ := vwap_sums_const base p v (flattenProviders prices) hflat
  have hwEq : weightedPrices prices base =
      ((flattenProviders prices).countP (fun e => e.1 == base) : ℤ) *
        decMul p v := hw
  have hvEq : volumeSum prices base =
      ((flattenProviders prices).countP (fun e => e.1 == base) : ℤ) * v := hv
  have hexflat : ∃ e ∈ flattenProviders prices, (e.1 == base) = true := by
    obtain ⟨pr, hpr, e, hepr, hbe⟩ := hex
    refine ⟨e, ?_, by simpa using hbe⟩
    rw [flattenProviders, List.mem_flatMap]
    exact ⟨pr, hpr, hepr⟩
  have hcount : 0 < (flattenProviders prices).countP (fun e => e.1 == base) :=
    List.countP_pos_iff.mpr hexflat
  have hnpos : (0 : ℤ) <
      ((flattenProviders prices).countP (fun e => e.1 == base) : ℤ) := by
    exact_mod_cast hcount
  have hbase : vwapHasBase prices base = true := by
    rw [vwapHasBase, List.any_eq_true]
    exact hexflat
  refine ⟨?_, ?_, ?_⟩
  · intro hvpos hdvd
    obtain ⟨k, hk⟩ := hdvd
    have hmul : decMul p v = k := by
      rw [decMul, hk, chopPrecisionAndRound_mul]
    have hvol : volumeSum prices base ≠ 0 := by
      rw [hvEq]
      exact ne_of_gt (mul_pos hnpos hvpos)
    rw [ComputeVWAP, if_pos ⟨hbase, hvol⟩, hwEq, hvEq, hmul]
    exact congrArg some (decQuo_identity _ k p v hnpos hvpos hk)
  · intro hv0
    rw [ComputeVWAP, if_neg]
    rintro ⟨_, hne⟩
    exact hne (by rw [hvEq, hv0, mul_zero])
  · intro prices2 base2 h0
    rw [ComputeVWAP, if_neg]
    rintro ⟨_, hne⟩
    exact hne h0

/-- Claim C9 (witness): two providers both reporting ATOM at price 28.0
(mantissa 28·10¹⁸) and volume 5.0 (mantissa 5·10¹⁸): the product is exactly
representable, so the VWAP is exactly the common price. -/
theorem computeVWAP_identity_witness :
    ((0 : ℤ) < 5 * 10 ^ 18 → decPrecision ∣ 28 * 10 ^ 18 * (5 * 10 ^ 18) →
      ComputeVWAP [("binance", [("ATOM", ⟨28 * 10 ^ 18, 5 * 10 ^ 18⟩)]),
        ("kraken", [("ATOM", ⟨28 * 10 ^ 18, 5 * 10 ^ 18⟩)])] "ATOM" =
        some (28 * 10 ^ 18)) ∧
    ((5 * 10 ^ 18 : ℤ) = 0 →
      ComputeVWAP [("binance", [("ATOM", ⟨28 * 10 ^ 18, 5 * 10 ^ 18⟩)]),
        ("kraken", [("ATOM", ⟨28 * 10 ^ 18, 5 * 10 ^ 18⟩)])] "ATOM" = none) ∧
    (∀ (prices2 : AggregatedProviderPrices) (base2 : String),
      volumeSum prices2 base2 = 0 → ComputeVWAP prices2 base2 = none) :=
  computeVWAP_identity
    [("binance", [("ATOM", ⟨28 * 10 ^ 18, 5 * 10 ^ 18⟩)]),
     ("kraken", [("ATOM", ⟨28 * 10 ^ 18, 5 * 10 ^ 18⟩)])]
    "ATOM" (28 * 10 ^ 18) (5 * 10 ^ 18)
    (by
      intro pr hpr e he hb
      rcases List.mem_cons.mp hpr with rfl | hpr2
      · simp_all
      · rcases List.mem_cons.mp hpr2 with rfl | hpr3
        · simp_all
        · cases hpr3)
    ⟨("binance", [("ATOM", ⟨28 * 10 ^ 18, 5 * 10 ^ 18⟩)]), by simp,
      ("ATOM", ⟨28 * 10 ^ 18, 5 * 10 ^ 18⟩), by simp, rfl⟩
